import Mathlib

/-!
# A shallow embedding of the client-credentials OAuth client

The development follows `httpclient.go` and `main.go`.  Go functions that
return a pair `(value, error)` are embedded with both components explicit
(`Option` stands for a possibly nil pointer or interface).  Code that can
fault at run time (a nil pointer dereference) returns in `Run`.

Library code outside the repository is taken as a parameter (JSON encoding,
URL parsing, the token endpoint, the round trip to the resource server) or
modelled after the library (`http.NewRequest`, the oauth2 transport).
-/

namespace Oauth

/-! ## Basic data -/

/-- A Go error value, identified with the text its `Error` method returns. -/
structure GoError where
  msg : String
deriving DecidableEq, Repr

/-- The content of a byte stream (`io.Reader`). -/
abbrev Bytes := List UInt8

/-- Result of running Go code that may fault: either it completes with a
value or the goroutine panics. -/
inductive Run (α : Type) where
  | done (a : α)
  | panic (reason : String)
deriving DecidableEq, Repr

/-- The text of the run-time panic raised by dereferencing a nil pointer. -/
def nilDeref : String :=
  "runtime error: invalid memory address or nil pointer dereference"

/-- Go maps `map[string][]string` (`url.Values`, `http.Header`) as association lists. -/
abbrev Values := List (String × List String)

/-- The type `http.Header`. -/
abbrev Header := List (String × List String)

/-- Map indexing `h[key]`: the values stored under `key`, nil if the key is absent. -/
def headerValues (h : Header) (key : String) : List String :=
  match h.lookup key with
  | some vs => vs
  | none => []

/-- The type `oauth2.Token`; only the access token is read by the program. -/
structure Token where
  AccessToken : String
  TokenType : String
deriving DecidableEq, Repr

/-- The interface `oauth2.TokenSource`: a value with internal state `σ`
whose `Token` method yields a token or an error and may update the state. -/
structure TokenSource (σ : Type) where
  state : σ
  Token : σ → Except GoError Token × σ

/-- The type `oauth2.Endpoint`. -/
structure Endpoint where
  AuthURL : String
  TokenURL : String
deriving DecidableEq, Repr

/-- The type `tls.Config`, reduced to the field the program sets. -/
structure TLSConfig where
  InsecureSkipVerify : Bool
deriving DecidableEq, Repr

/-- The type `http.Transport`, reduced to the field the program sets. -/
structure Transport where
  TLSClientConfig : Option TLSConfig
deriving DecidableEq, Repr

/-- The type `http.Client` as a configuration value: a nil `Transport`
means that `http.DefaultTransport` is used. -/
structure BaseClient where
  Transport : Option Transport
deriving DecidableEq, Repr

/-- The value `http.DefaultClient`, declared in net/http as `&Client{}`. -/
def DefaultClient : BaseClient := { Transport := none }

/-- Whether a base client accepts server certificates without verification.
The default transport and a transport without TLS settings both verify. -/
def skipsVerification (c : BaseClient) : Bool :=
  match c.Transport with
  | none => false
  | some t =>
    match t.TLSClientConfig with
    | none => false
    | some cfg => cfg.InsecureSkipVerify

/-- The context built by `context.WithValue(ctx, oauth2.HTTPClient, httpClient)`. -/
structure Context where
  HTTPClient : BaseClient
deriving DecidableEq, Repr

/-- The type `clientcredentials.Config`, with the fields the program sets. -/
structure CCConfig where
  ClientID : String
  ClientSecret : String
  Scopes : List String
  TokenURL : String
deriving DecidableEq, Repr

/-- A wire request (`http.Request`): method, parsed URL, headers and body. -/
structure HTTPRequest (U : Type) where
  Method : String
  URL : U
  Header : Header
  Body : Option Bytes

/-- The body of a response: its content and the error, if any, that reading it reports. -/
structure ReadCloser where
  data : Bytes
  readErr : Option GoError
deriving DecidableEq, Repr

/-- The type `http.Response`. -/
structure Response where
  StatusCode : Nat
  Body : ReadCloser
deriving DecidableEq, Repr

/-- The HTTP client held by `OauthClient`: its `Do` method sends a wire
request and returns a response pointer and an error. -/
structure HTTPDoer (U : Type) where
  Do : HTTPRequest U → Option Response × Option GoError

/-- The struct `Config`. -/
structure Config (σ : Type) where
  ApiAddress : String
  ClientID : String
  ClientSecret : String
  GrantType : String
  SkipSslValidation : Bool
  Token : String
  TokenSource : Option (TokenSource σ)

/-- The struct `OauthClient`. -/
structure OauthClient (σ U : Type) where
  config : Config σ
  Endpoint : Endpoint
  HttpClient : HTTPDoer U

/-- The struct `request`: a request under construction. -/
structure request (Obj : Type) where
  method : String
  url : String
  params : Values
  header : Option Header
  body : Option Bytes
  obj : Option Obj

/-- Library functions used while building a wire request.  `jsonEncode` is
what `json.NewEncoder(buf).Encode(obj)` leaves in the buffer, or its error;
`urlParse` is the URL parsing done by `http.NewRequest`. -/
structure Externals (Obj U : Type) where
  jsonEncode : Obj → Except GoError Bytes
  urlParse : String → Except GoError U

/-- The constructors of the oauth2 library used by `NewOauthClient`. -/
structure OAuth2Lib (σ U : Type) where
  TokenSource : CCConfig → Context → TokenSource σ
  Client : CCConfig → Context → HTTPDoer U

/-! ## The operations of httpclient.go -/

/-- The local `httpClient` of `NewOauthClient`: the default client, replaced
by a client with an insecure transport when `SkipSslValidation` is set. -/
def baseHTTPClient {σ : Type} (config : Config σ) : BaseClient :=
  if config.SkipSslValidation then
    { Transport := some { TLSClientConfig := some { InsecureSkipVerify := true } } }
  else
    DefaultClient

/-- The local `endpoint` of `NewOauthClient`. -/
def endpointOf {σ : Type} (config : Config σ) : Endpoint :=
  { AuthURL := config.ApiAddress ++ "/oauth/auth"
    TokenURL := config.ApiAddress ++ "/oauth/token" }

/-- The local `authConfig` of `NewOauthClient`. -/
def authConfigOf {σ : Type} (config : Config σ) : CCConfig :=
  { ClientID := config.ClientID
    ClientSecret := config.ClientSecret
    Scopes := [""]
    TokenURL := (endpointOf config).TokenURL }

/-- The function `NewOauthClient`; its error result is always nil. -/
def NewOauthClient {σ U : Type} (lib : OAuth2Lib σ U) (config : Config σ) :
    OauthClient σ U × Option GoError :=
  let ctx : Context := { HTTPClient := baseHTTPClient config }
  let authConfig := authConfigOf config
  let config := { config with TokenSource := some (lib.TokenSource authConfig ctx) }
  ({ config := config
     Endpoint := endpointOf config
     HttpClient := lib.Client authConfig ctx }, none)

/-- The method `OauthClient.NewRequest`. -/
def NewRequest {σ U : Type} (Obj : Type) (c : OauthClient σ U) (method path : String) :
    request Obj :=
  { method := method
    url := c.config.ApiAddress ++ path
    params := []
    header := none
    body := none
    obj := none }

/-- What `GetToken` returns, with the client after the call. -/
structure GetTokenOut (σ U : Type) where
  token : String
  err : Option GoError
  client : OauthClient σ U

/-- The method `OauthClient.GetToken`.  Calling `Token` on a nil token
source is a nil dereference. -/
def GetToken {σ U : Type} (c : OauthClient σ U) : Run (GetTokenOut σ U) :=
  match c.config.TokenSource with
  | none => .panic nilDeref
  | some ts =>
    let res := ts.Token ts.state
    let c1 : OauthClient σ U :=
      { c with config := { c.config with TokenSource := some { ts with state := res.2 } } }
    match res.1 with
    | .error err =>
      .done { token := "", err := some ⟨"Error getting bearer token: " ++ err.msg⟩, client := c1 }
    | .ok token =>
      .done { token := "bearer " ++ token.AccessToken, err := none, client := c1 }

/-- The function `encodeBody`. -/
def encodeBody {Obj U : Type} (x : Externals Obj U) (obj : Obj) :
    Option Bytes × Option GoError :=
  match x.jsonEncode obj with
  | .error err => (none, some err)
  | .ok buf => (some buf, none)

/-- The table `isTokenTable` of the HTTP library: the characters allowed in a token. -/
def isTokenRune (ch : Char) : Bool :=
  ch.toNat < 128 &&
    (ch.isAlphanum ||
      [33, 35, 36, 37, 38, 39, 42, 43, 45, 46, 94, 95, 96, 124, 126].contains ch.toNat)

/-- The function `validMethod` of net/http: a non-empty string of token characters. -/
def validMethod (method : String) : Bool :=
  decide (0 < method.length) && method.data.all isTokenRune

/-- Escaping of the characters of a quoted Go string: the double quote and the
backslash get a backslash in front; other characters are kept (control and
non-ASCII characters, which Go writes as escapes, do not occur in the uses
below). -/
def quoteChars : List Char → List Char
  | [] => []
  | ch :: rest =>
    if ch = Char.ofNat 34 ∨ ch = Char.ofNat 92 then Char.ofNat 92 :: ch :: quoteChars rest
    else ch :: quoteChars rest

/-- The rendering of a string by the verb `%q`: the escaped text between double quotes. -/
def goQuote (s : String) : String :=
  ⟨Char.ofNat 34 :: (quoteChars s.data ++ [Char.ofNat 34])⟩

/-- The function `http.NewRequest` of the standard library, as far as the
fields kept in `HTTPRequest`: an empty method means GET, the method must be a
valid token and the URL must parse; the new request has a fresh empty header
map.  The invalid method is quoted in the message as by the verb `%q`. -/
def httpNewRequest {Obj U : Type} (x : Externals Obj U) (method url : String)
    (body : Option Bytes) : Except GoError (HTTPRequest U) :=
  let method := if method = "" then "GET" else method
  if !validMethod method then
    .error ⟨"net/http: invalid method " ++ goQuote method⟩
  else
    match x.urlParse url with
    | .error err => .error err
    | .ok u => .ok { Method := method, URL := u, Header := [], Body := body }

/-- What `toHTTP` returns, with the descriptor after the call (its body may
have been filled in by the encoder). -/
structure ToHTTPOut (Obj U : Type) where
  req : Option (HTTPRequest U)
  err : Option GoError
  r : request Obj

/-- The method `request.toHTTP`.  The assignment `req.Header = *r.header`
dereferences the header pointer of the descriptor. -/
def toHTTP {Obj U : Type} (x : Externals Obj U) (r : request Obj) : Run (ToHTTPOut Obj U) :=
  -- Check if we should encode the body
  let enc : Option GoError × request Obj :=
    match r.body, r.obj with
    | none, some obj =>
      match encodeBody x obj with
      | (_, some err) => (some err, r)
      | (b, none) => (none, { r with body := b })
    | _, _ => (none, r)
  match enc with
  | (some err, r) => .done { req := none, err := some err, r := r }
  | (none, r) =>
    -- Create the HTTP request
    match httpNewRequest x r.method r.url r.body with
    | .error err => .done { req := none, err := some err, r := r }
    | .ok req =>
      match r.header with
      | none => .panic nilDeref
      | some h => .done { req := some { req with Header := h }, err := none, r := r }

/-- What `DoRequest` returns, with the wire requests handed to the HTTP
client during the call, in order. -/
structure DoRequestOut (U : Type) where
  resp : Option Response
  err : Option GoError
  sent : List (HTTPRequest U)

/-- The method `OauthClient.DoRequest`. -/
def DoRequest {σ Obj U : Type} (x : Externals Obj U) (c : OauthClient σ U) (r : request Obj) :
    Run (DoRequestOut U) :=
  match toHTTP x r with
  | .panic p => .panic p
  | .done out =>
    match out.err, out.req with
    | some err, _ => .done { resp := none, err := some err, sent := [] }
    | none, none => .panic nilDeref
    | none, some req =>
      let res := c.HttpClient.Do req
      .done { resp := res.1, err := res.2, sent := [req] }

/-! ## The caller-side helper of main.go -/

/-- The lines written to the log by `executeRequest`. -/
inductive LogLine where
  | executing (method url : String)
  | failedExecute (err : GoError)
  | failedRead (err : GoError)
  | response (body : Bytes)
deriving DecidableEq, Repr

/-- The observable steps of `executeRequest`. -/
inductive Event (U : Type) where
  | log (line : LogLine)
  | send (req : HTTPRequest U)
  | closeBody (resp : Response)

/-- The function `executeRequest`, as the sequence of its observable steps.
The statement `defer resp.Body.Close()` reads `resp.Body` when it is
executed, which faults on a nil response; the deferred call runs on both
returns that follow it. -/
def executeRequest {σ U : Type} (Obj : Type) (x : Externals Obj U) (client : OauthClient σ U)
    (method path : String) (header : Option Header) : Run (List (Event U)) :=
  let r : request Obj := { NewRequest Obj client method path with header := header }
  let started : List (Event U) := [.log (.executing r.method r.url)]
  match DoRequest x client r with
  | .panic p => .panic p
  | .done out =>
    let afterDo : List (Event U) :=
      started ++ out.sent.map Event.send ++
        (match out.err with
         | some err => [.log (.failedExecute err)]
         | none => [])
    match out.resp with
    | none => .panic nilDeref
    | some resp =>
      match resp.Body.readErr with
      | some err => .done (afterDo ++ [.log (.failedRead err), .closeBody resp])
      | none => .done (afterDo ++ [.log (.response resp.Body.data), .closeBody resp])

/-! ## The HTTP client installed by `NewOauthClient`

`authConfig.Client(ctx)` is `oauth2.NewClient(ctx, authConfig.TokenSource(ctx))`
of the oauth2 library: an `http.Client` whose transport is an `oauth2.Transport`
over the transport of the context client.  The library is modelled as far as
one round trip goes (redirects are not followed). -/

/-- The function `strings.EqualFold` against an ASCII word: equality up to the
case of ASCII letters. -/
def equalFold (s t : String) : Bool :=
  s.data.map Char.toLower == t.data.map Char.toLower

/-- The method `Token.Type` of the oauth2 library: the canonical spelling of
the token type, `Bearer` when the token has none. -/
def Token.Type (t : Token) : String :=
  if equalFold t.TokenType "bearer" then "Bearer"
  else if equalFold t.TokenType "mac" then "MAC"
  else if equalFold t.TokenType "basic" then "Basic"
  else if t.TokenType ≠ "" then t.TokenType
  else "Bearer"

/-- The method `Header.Set` on a canonical key: the entry of the key is
replaced by the single value. -/
def headerSet (h : Header) (key value : String) : Header :=
  (key, [value]) :: h.filter (fun kv => kv.1 != key)

/-- The method `Token.SetAuthHeader` of the oauth2 library, applied to the
copy of the request that the transport makes. -/
def SetAuthHeader {U : Type} (t : Token) (r : HTTPRequest U) : HTTPRequest U :=
  { r with Header := headerSet r.Header "Authorization" (t.Type ++ " " ++ t.AccessToken) }

/-- The type `oauth2.Transport`: a token source and the base round tripper,
which puts a request on the network and returns the answer of the server. -/
structure OAuth2Transport (σ U : Type) where
  Source : TokenSource σ
  Base : HTTPRequest U → Option Response × Option GoError

/-- What a round trip returns, with the requests passed to the base round
tripper, that is the requests the server receives, in order. -/
structure RoundTripOut (U : Type) where
  resp : Option Response
  err : Option GoError
  wire : List (HTTPRequest U)

/-- The method `Transport.RoundTrip` of the oauth2 library: it asks the source
for a token, fails with the error of the source, and otherwise sends a copy of
the request with the Authorization header set from the token. -/
def OAuth2Transport.RoundTrip {σ U : Type} (t : OAuth2Transport σ U) (req : HTTPRequest U) :
    RoundTripOut U :=
  match (t.Source.Token t.Source.state).1 with
  | .error err => { resp := none, err := some err, wire := [] }
  | .ok token =>
    let req2 := SetAuthHeader token req
    let res := t.Base req2
    { resp := res.1, err := res.2, wire := [req2] }

/-- The operation name that `http.Client.Do` puts in its errors: the method
with its first letter kept and the rest in lower case, `Get` for no method. -/
def urlErrorOp (method : String) : String :=
  match method.data with
  | [] => "Get"
  | ch :: rest => ⟨ch :: rest.map Char.toLower⟩

/-- The method `http.Client.Do` over an oauth2 transport: the answer of the
round trip, its error wrapped in a `url.Error` (operation, quoted URL, cause). -/
def oauth2Client {σ U : Type} (urlString : U → String) (t : OAuth2Transport σ U) : HTTPDoer U :=
  { Do := fun req =>
      let out := t.RoundTrip req
      match out.err with
      | some err =>
        (none, some ⟨urlErrorOp req.Method ++ " " ++ goQuote (urlString req.URL) ++ ": " ++ err.msg⟩)
      | none => (out.resp, none) }

/-- The world outside the program: the token source that the client-credentials
configuration builds over the token endpoint, the round trip of a base client
to the resource server, and the text of a parsed URL. -/
structure Network (σ U : Type) where
  TokenSource : CCConfig → Context → TokenSource σ
  RoundTrip : BaseClient → HTTPRequest U → Option Response × Option GoError
  urlString : U → String

/-- The oauth2 transport of the client built for a configuration. -/
def oauth2TransportOf {σ U : Type} (net : Network σ U) (cc : CCConfig) (ctx : Context) :
    OAuth2Transport σ U :=
  { Source := net.TokenSource cc ctx, Base := net.RoundTrip ctx.HTTPClient }

/-- The constructors `clientcredentials.Config.TokenSource` and
`clientcredentials.Config.Client` over a network. -/
def oauth2Lib {σ U : Type} (net : Network σ U) : OAuth2Lib σ U :=
  { TokenSource := net.TokenSource
    Client := fun cc ctx => oauth2Client net.urlString (oauth2TransportOf net cc ctx) }

/-! ## Concrete instances used to exercise the definitions -/

/-- A small family of body objects: a boolean, which encodes, and a channel,
which the JSON encoder rejects. -/
inductive SampleObj where
  | flag (b : Bool)
  | channel
deriving DecidableEq, Repr

/-- An instance of the library functions: booleans encode as the encoder
writes them (the literal and a newline), and a URL parses, to itself, unless it
contains a control character. -/
def sampleExternals : Externals SampleObj String :=
  { jsonEncode := fun o =>
      match o with
      | .flag true => .ok [116, 114, 117, 101, 10]
      | .flag false => .ok [102, 97, 108, 115, 101, 10]
      | .channel => .error ⟨"json: unsupported type: chan int"⟩
    urlParse := fun s =>
      if s.data.any (fun ch => ch.toNat < 32 || ch.toNat == 127) then
        .error ⟨"parse " ++ goQuote s ++ ": net/url: invalid control character in URL"⟩
      else .ok s }

/-- A successful response with an empty body. -/
def sampleResponse : Response :=
  { StatusCode := 200, Body := { data := [], readErr := none } }

/-- An oauth2 library whose token endpoint issues the token `abc123` and
whose HTTP client answers every request with `sampleResponse`. -/
def sampleLib : OAuth2Lib Nat String :=
  { TokenSource := fun _ _ =>
      { state := 0, Token := fun n => (.ok { AccessToken := "abc123", TokenType := "bearer" }, n + 1) }
    Client := fun _ _ => { Do := fun _ => (some sampleResponse, none) } }

/-- An oauth2 library whose token endpoint and resource API are unreachable. -/
def downLib : OAuth2Lib Nat String :=
  { TokenSource := fun _ _ =>
      { state := 0, Token := fun n => (.error ⟨"dial tcp: connection refused"⟩, n) }
    Client := fun _ _ => { Do := fun _ => (none, some ⟨"dial tcp: connection refused"⟩) } }

/-- The zero value of `Config`, as declared by `var config Config` in `main`. -/
def zeroConfig (σ : Type) : Config σ :=
  { ApiAddress := "", ClientID := "", ClientSecret := "", GrantType := "",
    SkipSslValidation := false, Token := "", TokenSource := none }

/-- A configuration for `https://api.example.com`. -/
def sampleConfig : Config Nat :=
  { zeroConfig Nat with
    ApiAddress := "https://api.example.com", ClientID := "id", ClientSecret := "secret" }

/-- The client built from `sampleConfig` over `sampleLib`. -/
def sampleClient : OauthClient Nat String := (NewOauthClient sampleLib sampleConfig).1

/-- The client built from `sampleConfig` over `downLib`. -/
def downClient : OauthClient Nat String := (NewOauthClient downLib sampleConfig).1

/-- The header set built in `main`: `Accept: application/json`. -/
def acceptHeader : Header := [("Accept", ["application/json"])]

/-- A descriptor with a header set, a body object that encodes, no raw body
and a method that is not a token (it contains a space). -/
def badMethodRequest : request SampleObj :=
  { method := "BAD METHOD", url := "https://api.example.com/info", params := [],
    header := some acceptHeader, body := none, obj := some (.flag true) }

/-- A descriptor with a header set, no raw body and a body object that the
encoder rejects. -/
def channelRequest : request SampleObj :=
  { method := "POST", url := "https://api.example.com/Users", params := [],
    header := some acceptHeader, body := none, obj := some .channel }

/-- The wire request that `DoRequest` builds for GET `/Users` with `acceptHeader`. -/
def usersWireRequest : HTTPRequest String :=
  { Method := "GET", URL := "https://api.example.com/Users", Header := acceptHeader,
    Body := none }

/-- A network whose token endpoint answers with the access token `abc123`
and no token type, and whose resource server answers `sampleResponse`. -/
def sampleNetwork : Network Nat String :=
  { TokenSource := fun _ _ =>
      { state := 0, Token := fun n => (.ok { AccessToken := "abc123", TokenType := "" }, n + 1) }
    RoundTrip := fun _ _ => (some sampleResponse, none)
    urlString := fun u => u }

/-- The client built from `sampleConfig` over `sampleNetwork`. -/
def networkClient : OauthClient Nat String :=
  (NewOauthClient (oauth2Lib sampleNetwork) sampleConfig).1

/-- The descriptor of `executeRequest` for GET `/Users` on `networkClient`. -/
def networkUsersRequest : request SampleObj :=
  { NewRequest SampleObj networkClient "GET" "/Users" with header := some acceptHeader }

/-- A descriptor fresh from `NewRequest` on which only a body object was set. -/
def freshObjectRequest : request SampleObj :=
  { NewRequest SampleObj sampleClient "POST" "/Users" with obj := some (.flag true) }

/-! ## Token acquisition -/

/-- The success branch of `GetToken`: the string returned is `bearer ` followed
by the access token that the source yields. -/
theorem GetToken_token_of_source {σ U : Type} (c : OauthClient σ U) (ts : TokenSource σ)
    (tok : Token) (s : σ) (hts : c.config.TokenSource = some ts)
    (hok : ts.Token ts.state = (.ok tok, s)) :
    ∃ out, GetToken c = .done out ∧ out.token = "bearer " ++ tok.AccessToken ∧
      out.err = none := by
  simp [GetToken, hts, hok]

/-- C1: when the token source of the client yields a token with access-token
string `t`, `GetToken` completes and returns the string `bearer ` followed by
`t`, with a nil error. -/
theorem GetToken_ok {σ U : Type} (c : OauthClient σ U) (ts : TokenSource σ) (tok : Token)
    (s : σ) (hts : c.config.TokenSource = some ts) (hok : ts.Token ts.state = (.ok tok, s)) :
    ∃ out, GetToken c = .done out ∧ out.token = "bearer " ++ tok.AccessToken ∧
      out.err = none := by
  simp [GetToken, hts, hok]

/-- Witness for C1 on the sample client, whose source issues `abc123`. -/
theorem GetToken_ok_witness :
    ∃ out, GetToken sampleClient = .done out ∧ out.token = "bearer abc123" ∧ out.err = none :=
  GetToken_ok sampleClient
    { state := 0, Token := fun n => (.ok { AccessToken := "abc123", TokenType := "bearer" }, n + 1) }
    { AccessToken := "abc123", TokenType := "bearer" } 1 rfl rfl

/-- C2: when the token source of the client fails with error `e`, `GetToken`
completes and returns the empty string together with an error whose message
is `Error getting bearer token: ` followed by the message of `e`; the message
of `e` is therefore a substring of it. -/
theorem GetToken_error {σ U : Type} (c : OauthClient σ U) (ts : TokenSource σ) (e : GoError)
    (s : σ) (hts : c.config.TokenSource = some ts) (herr : ts.Token ts.state = (.error e, s)) :
    ∃ out err, GetToken c = .done out ∧ out.token = "" ∧ out.err = some err ∧
      err.msg = "Error getting bearer token: " ++ e.msg ∧ e.msg.data <:+: err.msg.data := by
  refine ⟨{ token := "", err := some ⟨"Error getting bearer token: " ++ e.msg⟩,
            client := { c with config := { c.config with TokenSource := some { ts with state := s } } } },
    ⟨"Error getting bearer token: " ++ e.msg⟩, ?_, rfl, rfl, rfl, ?_⟩
  · simp [GetToken, hts, herr]
  · exact ⟨"Error getting bearer token: ".data, [], by simp⟩

/-- Witness for C2 on the client whose token endpoint is unreachable. -/
theorem GetToken_error_witness :
    ∃ out err, GetToken downClient = .done out ∧ out.token = "" ∧ out.err = some err ∧
      err.msg = "Error getting bearer token: " ++ "dial tcp: connection refused" ∧
      "dial tcp: connection refused".data <:+: err.msg.data :=
  GetToken_error downClient
    { state := 0, Token := fun n => (.error ⟨"dial tcp: connection refused"⟩, n) }
    ⟨"dial tcp: connection refused"⟩ 0 rfl rfl

/-! ## Request construction -/

/-- C3: `NewRequest` returns a descriptor with the given method, with the URL
`ApiAddress ++ path` (plain concatenation), with empty parameters, no raw body
and no body object. -/
theorem NewRequest_fields {σ U : Type} (Obj : Type) (c : OauthClient σ U)
    (method path : String) :
    (NewRequest Obj c method path).method = method ∧
    (NewRequest Obj c method path).url = c.config.ApiAddress ++ path ∧
    (NewRequest Obj c method path).params = [] ∧
    (NewRequest Obj c method path).body = none ∧
    (NewRequest Obj c method path).obj = none :=
  ⟨rfl, rfl, rfl, rfl, rfl⟩

/-- The descriptor returned by `NewRequest` has a nil header pointer. -/
theorem NewRequest_header {σ U : Type} (Obj : Type) (c : OauthClient σ U)
    (method path : String) : (NewRequest Obj c method path).header = none := rfl

/-- No slash is inserted or removed: a base address ending in a slash and a
path starting with one give a double slash. -/
theorem NewRequest_no_slash_normalisation :
    (NewRequest SampleObj
      { sampleClient with config := { sampleConfig with ApiAddress := "https://api.example.com/" } }
      "GET" "/info").url = "https://api.example.com//info" := by
  decide

/-! ## Client construction -/

/-- C9: the base HTTP client chosen by `NewOauthClient` skips certificate
verification exactly when `SkipSslValidation` is set; it is the default client
exactly when the flag is false, the flag is false in the zero configuration,
and this base client is the one handed to the oauth2 constructors. -/
theorem baseHTTPClient_skips_iff {σ U : Type} (lib : OAuth2Lib σ U) (config : Config σ) :
    (skipsVerification (baseHTTPClient config) = true ↔ config.SkipSslValidation = true) ∧
    (baseHTTPClient config = DefaultClient ↔ config.SkipSslValidation = false) ∧
    skipsVerification DefaultClient = false ∧
    (zeroConfig σ).SkipSslValidation = false ∧
    (NewOauthClient lib config).1.HttpClient =
      lib.Client (authConfigOf config) { HTTPClient := baseHTTPClient config } ∧
    (NewOauthClient lib config).1.config.TokenSource =
      some (lib.TokenSource (authConfigOf config) { HTTPClient := baseHTTPClient config }) := by
  refine ⟨?_, ?_, rfl, rfl, rfl, rfl⟩
  · cases h : config.SkipSslValidation <;> simp [baseHTTPClient, skipsVerification, h, DefaultClient]
  · cases h : config.SkipSslValidation <;> simp [baseHTTPClient, h, DefaultClient]

/-! ## Building the wire request -/

/-- The library constructor accepts a method that is empty or a valid token,
with a URL that parses; the request it returns has that method (GET for the
empty one), the parsed URL and the given body. -/
theorem httpNewRequest_ok {Obj U : Type} (x : Externals Obj U) (method url : String)
    (body : Option Bytes) (u : U) (hm : method = "" ∨ validMethod method = true)
    (hu : x.urlParse url = .ok u) :
    httpNewRequest x method url body =
      .ok { Method := if method = "" then "GET" else method, URL := u, Header := [],
            Body := body } := by
  have hv : validMethod (if method = "" then "GET" else method) = true := by
    rcases hm with h | h
    · subst h; decide
    · by_cases h0 : method = ""
      · subst h0; decide
      · simpa [h0] using h
  simp [httpNewRequest, hv, hu]

/-- A method that is neither empty nor a valid token is refused. -/
theorem httpNewRequest_invalid_method {Obj U : Type} (x : Externals Obj U) (method url : String)
    (body : Option Bytes) (h0 : method ≠ "") (hm : validMethod method = false) :
    httpNewRequest x method url body =
      .error ⟨"net/http: invalid method " ++ goQuote method⟩ := by
  simp [httpNewRequest, h0, hm]

/-- A URL that does not parse is refused with the error of the parser. -/
theorem httpNewRequest_invalid_url {Obj U : Type} (x : Externals Obj U) (method url : String)
    (body : Option Bytes) (e : GoError) (hm : method = "" ∨ validMethod method = true)
    (hu : x.urlParse url = .error e) :
    httpNewRequest x method url body = .error e := by
  have hv : validMethod (if method = "" then "GET" else method) = true := by
    rcases hm with h | h
    · subst h; decide
    · by_cases h0 : method = ""
      · subst h0; decide
      · simpa [h0] using h
  simp [httpNewRequest, hv, hu]

/-- With a raw body set, or with neither raw body nor object, `toHTTP` goes
straight to the library constructor with the body of the descriptor. -/
theorem toHTTP_no_encoding {Obj U : Type} (x : Externals Obj U) (r : request Obj)
    (h : r.body ≠ none ∨ r.obj = none) :
    toHTTP x r =
      match httpNewRequest x r.method r.url r.body with
      | .error err => .done { req := none, err := some err, r := r }
      | .ok req =>
        match r.header with
        | none => .panic nilDeref
        | some hd => .done { req := some { req with Header := hd }, err := none, r := r } := by
  unfold toHTTP
  rcases h with h | h
  · cases hb : r.body with
    | none => exact absurd hb h
    | some b => simp [hb]
  · cases hb : r.body <;> simp [h, hb]

/-- With no raw body and an object that encodes to `b`, `toHTTP` stores `b`
as the body of the descriptor and calls the library constructor with it. -/
theorem toHTTP_encoded {Obj U : Type} (x : Externals Obj U) (r : request Obj) (o : Obj)
    (b : Bytes) (hb : r.body = none) (ho : r.obj = some o) (he : x.jsonEncode o = .ok b) :
    toHTTP x r =
      match httpNewRequest x r.method r.url (some b) with
      | .error err => .done { req := none, err := some err, r := { r with body := some b } }
      | .ok req =>
        match r.header with
        | none => .panic nilDeref
        | some hd =>
          .done { req := some { req with Header := hd }, err := none,
                  r := { r with body := some b } } := by
  unfold toHTTP
  simp [hb, ho, encodeBody, he]

/-- With no raw body and an object that the encoder rejects, `toHTTP` returns
the error of the encoder and no request. -/
theorem toHTTP_encode_error {Obj U : Type} (x : Externals Obj U) (r : request Obj) (o : Obj)
    (e : GoError) (hb : r.body = none) (ho : r.obj = some o) (he : x.jsonEncode o = .error e) :
    toHTTP x r = .done { req := none, err := some e, r := r } := by
  unfold toHTTP
  simp [hb, ho, encodeBody, he]

/-- A descriptor fresh from `NewRequest`, with a method and URL the library
accepts, makes `toHTTP` fault: the header pointer it dereferences is nil. -/
theorem toHTTP_NewRequest_faults {σ Obj U : Type} (x : Externals Obj U) (c : OauthClient σ U)
    (method path : String) (u : U) (hm : method = "" ∨ validMethod method = true)
    (hu : x.urlParse (c.config.ApiAddress ++ path) = .ok u) :
    toHTTP x (NewRequest Obj c method path) = .panic nilDeref := by
  rw [toHTTP_no_encoding x _ (Or.inr rfl)]
  have h := httpNewRequest_ok x method (c.config.ApiAddress ++ path) none u hm hu
  simp [NewRequest, h]

/-- Once the caller has set a header set `hd` on the fresh descriptor,
`toHTTP` succeeds: the wire request has the given method, the parse of
`ApiAddress ++ path` as URL, the headers `hd` and no body. -/
theorem toHTTP_NewRequest_with_header {σ Obj U : Type} (x : Externals Obj U)
    (c : OauthClient σ U) (method path : String) (hd : Header) (u : U)
    (hm : method = "" ∨ validMethod method = true)
    (hu : x.urlParse (c.config.ApiAddress ++ path) = .ok u) :
    toHTTP x { NewRequest Obj c method path with header := some hd } =
      .done { req := some { Method := if method = "" then "GET" else method, URL := u,
                            Header := hd, Body := none },
              err := none
              r := { NewRequest Obj c method path with header := some hd } } := by
  rw [toHTTP_no_encoding x _ (Or.inr rfl)]
  have h := httpNewRequest_ok x method (c.config.ApiAddress ++ path) none u hm hu
  simp [NewRequest, h]

/-- C4: on the sample client, whose address `https://api.example.com` is well
formed, the descriptor returned by `NewRequest` for GET `/info` has a nil
header pointer, the library accepts its method and URL, and `toHTTP` on it
faults with a nil dereference instead of producing a wire request. -/
theorem toHTTP_NewRequest_info_faults :
    (NewRequest SampleObj sampleClient "GET" "/info").header = none ∧
    (∃ req, httpNewRequest sampleExternals "GET" "https://api.example.com/info" none = .ok req ∧
      req.Method = "GET" ∧ req.URL = "https://api.example.com/info") ∧
    toHTTP sampleExternals (NewRequest SampleObj sampleClient "GET" "/info") =
      .panic nilDeref := by
  refine ⟨rfl, ⟨_, httpNewRequest_ok sampleExternals "GET" "https://api.example.com/info" none
    "https://api.example.com/info" (Or.inr (by decide)) (by simp [sampleExternals]), rfl, rfl⟩, ?_⟩
  exact toHTTP_NewRequest_faults sampleExternals sampleClient "GET" "/info"
    "https://api.example.com/info" (Or.inr (by decide))
    (by simp [sampleExternals, sampleClient, NewOauthClient, sampleConfig])

/-- The last step of `toHTTP`: if it ends without error, the header pointer
was not nil and the request carries the header set it points to. -/
theorem toHTTP_tail_headers {Obj U : Type} (res : Except GoError (HTTPRequest U))
    (hdr : Option Header) (r1 : request Obj) (out : ToHTTPOut Obj U)
    (h : (match res with
          | .error err => Run.done { req := none, err := some err, r := r1 }
          | .ok req =>
            match hdr with
            | none => Run.panic nilDeref
            | some hd => Run.done { req := some { req with Header := hd }, err := none, r := r1 })
          = Run.done out)
    (hok : out.err = none) :
    ∃ req hd, out.req = some req ∧ hdr = some hd ∧ req.Header = hd := by
  cases res with
  | error e =>
    simp at h
    subst h
    simp at hok
  | ok req =>
    cases hdr with
    | none => simp at h
    | some hd =>
      simp at h
      subst h
      exact ⟨_, hd, rfl, rfl, rfl⟩

/-- A run of `toHTTP` that ends without error returns a request, and the
header set of that request is the one the descriptor points to. -/
theorem toHTTP_done_header {Obj U : Type} (x : Externals Obj U) (r : request Obj)
    (out : ToHTTPOut Obj U) (h : toHTTP x r = .done out) (hok : out.err = none) :
    ∃ req hd, out.req = some req ∧ r.header = some hd ∧ req.Header = hd := by
  cases hb : r.body with
  | some b =>
    rw [toHTTP_no_encoding x r (Or.inl (by simp [hb]))] at h
    exact toHTTP_tail_headers _ _ _ _ h hok
  | none =>
    cases ho : r.obj with
    | none =>
      rw [toHTTP_no_encoding x r (Or.inr ho)] at h
      exact toHTTP_tail_headers _ _ _ _ h hok
    | some o =>
      cases he : x.jsonEncode o with
      | error e =>
        rw [toHTTP_encode_error x r o e hb ho he] at h
        simp at h
        subst h
        simp at hok
      | ok b =>
        rw [toHTTP_encoded x r o b hb ho he] at h
        exact toHTTP_tail_headers _ _ _ _ h hok

/-- C6: when `toHTTP` succeeds, the descriptor had a header set and the
header set of the wire request is that very one: under every key the request
holds the values the descriptor holds, Content-Type and Accept included. -/
theorem toHTTP_headers {Obj U : Type} (x : Externals Obj U) (r : request Obj)
    (out : ToHTTPOut Obj U) (h : toHTTP x r = .done out) (hok : out.err = none) :
    ∃ req hd, out.req = some req ∧ r.header = some hd ∧ req.Header = hd ∧
      ∀ key, headerValues req.Header key = headerValues hd key := by
  obtain ⟨req, hd, h1, h2, h3⟩ := toHTTP_done_header x r out h hok
  exact ⟨req, hd, h1, h2, h3, fun key => by rw [h3]⟩

/-- Witness for C6: GET `/info` with the header set of `main`. -/
theorem toHTTP_headers_witness :
    ∃ req hd, (some { Method := "GET", URL := "https://api.example.com/info",
                      Header := acceptHeader, Body := none } : Option (HTTPRequest String)) =
        some req ∧
      (some acceptHeader : Option Header) = some hd ∧ req.Header = hd ∧
      ∀ key, headerValues req.Header key = headerValues hd key :=
  toHTTP_headers sampleExternals
    { NewRequest SampleObj sampleClient "GET" "/info" with header := some acceptHeader }
    { req := some { Method := "GET", URL := "https://api.example.com/info",
                    Header := acceptHeader, Body := none },
      err := none,
      r := { NewRequest SampleObj sampleClient "GET" "/info" with header := some acceptHeader } }
    (toHTTP_NewRequest_with_header sampleExternals sampleClient "GET" "/info" acceptHeader
      "https://api.example.com/info" (Or.inr (by decide))
      (by simp [sampleExternals, sampleClient, NewOauthClient, sampleConfig]))
    rfl

/-- A method that is not a token is refused after the body was encoded:
`toHTTP` returns the error of the library constructor and no wire request. -/
theorem toHTTP_badMethodRequest :
    toHTTP sampleExternals badMethodRequest =
      .done { req := none, err := some ⟨"net/http: invalid method " ++ goQuote "BAD METHOD"⟩,
              r := { badMethodRequest with body := some [116, 114, 117, 101, 10] } } := by
  rw [toHTTP_encoded sampleExternals badMethodRequest (.flag true) [116, 114, 117, 101, 10]
    rfl rfl rfl]
  rw [show badMethodRequest.method = "BAD METHOD" from rfl,
    httpNewRequest_invalid_method sampleExternals "BAD METHOD" _ _ (by decide) (by decide)]
  rfl

/-- For a descriptor with no raw body, with a header set, with a method that
is empty or a valid token and a URL that parses, `toHTTP` succeeds; if a body
object is set and encodes to `b`, the body of the wire request is `b`, and if
no body object is set the wire request has no body. -/
theorem toHTTP_body_with_header {Obj U : Type} (x : Externals Obj U) (r : request Obj)
    (hd : Header) (u : U) (hb : r.body = none) (hh : r.header = some hd)
    (hm : r.method = "" ∨ validMethod r.method = true) (hu : x.urlParse r.url = .ok u) :
    (∀ o b, r.obj = some o → x.jsonEncode o = .ok b →
      ∃ out req, toHTTP x r = .done out ∧ out.err = none ∧ out.req = some req ∧
        req.Body = some b) ∧
    (r.obj = none →
      ∃ out req, toHTTP x r = .done out ∧ out.err = none ∧ out.req = some req ∧
        req.Body = none) := by
  constructor
  · intro o b ho he
    rw [toHTTP_encoded x r o b hb ho he, httpNewRequest_ok x r.method r.url (some b) u hm hu]
    simp [hh]
  · intro ho
    rw [toHTTP_no_encoding x r (Or.inr ho), httpNewRequest_ok x r.method r.url r.body u hm hu]
    simp [hh, hb]

/-- For a descriptor with no raw body and a nil header pointer, with a method
and URL the library accepts, `toHTTP` faults, whether a body object that
encodes is set or none is set. -/
theorem toHTTP_body_without_header {Obj U : Type} (x : Externals Obj U) (r : request Obj)
    (u : U) (hb : r.body = none) (hh : r.header = none)
    (hm : r.method = "" ∨ validMethod r.method = true) (hu : x.urlParse r.url = .ok u) :
    (∀ o b, r.obj = some o → x.jsonEncode o = .ok b → toHTTP x r = .panic nilDeref) ∧
    (r.obj = none → toHTTP x r = .panic nilDeref) := by
  constructor
  · intro o b ho he
    rw [toHTTP_encoded x r o b hb ho he, httpNewRequest_ok x r.method r.url (some b) u hm hu]
    simp [hh]
  · intro ho
    rw [toHTTP_no_encoding x r (Or.inr ho), httpNewRequest_ok x r.method r.url r.body u hm hu]
    simp [hh]

/-- C5: on the descriptor that `NewRequest` returns for POST `/Users`, with a
body object set on it and nothing else, there is no raw body, the object
encodes and the library accepts method, URL and encoded body, yet `toHTTP`
faults with a nil dereference instead of producing a request with that body;
the same descriptor with a header set gives the request whose body is the
encoding of the object. -/
theorem toHTTP_body_faults_without_header :
    freshObjectRequest.body = none ∧
    freshObjectRequest.obj = some (.flag true) ∧
    freshObjectRequest.header = none ∧
    sampleExternals.jsonEncode (.flag true) = .ok [116, 114, 117, 101, 10] ∧
    (∃ req, httpNewRequest sampleExternals "POST" "https://api.example.com/Users"
        (some [116, 114, 117, 101, 10]) = .ok req ∧
      req.Body = some [116, 114, 117, 101, 10]) ∧
    toHTTP sampleExternals freshObjectRequest = .panic nilDeref ∧
    (∃ out req, toHTTP sampleExternals { freshObjectRequest with header := some acceptHeader } =
        .done out ∧ out.err = none ∧ out.req = some req ∧
      req.Body = some [116, 114, 117, 101, 10]) := by
  have hu : sampleExternals.urlParse "https://api.example.com/Users" =
      .ok "https://api.example.com/Users" := by simp [sampleExternals]
  refine ⟨rfl, rfl, rfl, rfl, ⟨_, httpNewRequest_ok sampleExternals "POST"
    "https://api.example.com/Users" (some [116, 114, 117, 101, 10])
    "https://api.example.com/Users" (Or.inr (by decide)) hu, rfl⟩, ?_, ?_⟩
  · exact (toHTTP_body_without_header sampleExternals freshObjectRequest
      "https://api.example.com/Users" rfl rfl (Or.inr (by decide))
      (by simp [sampleExternals, freshObjectRequest, NewRequest, sampleClient, NewOauthClient,
        sampleConfig])).1 (.flag true) [116, 114, 117, 101, 10] rfl rfl
  · exact (toHTTP_body_with_header sampleExternals
      { freshObjectRequest with header := some acceptHeader } acceptHeader
      "https://api.example.com/Users" rfl rfl (Or.inr (by decide))
      (by simp [sampleExternals, freshObjectRequest, NewRequest, sampleClient, NewOauthClient,
        sampleConfig])).1 (.flag true) [116, 114, 117, 101, 10] rfl rfl

/-! ## Sending -/

/-- C8: when building fails, that is when `toHTTP` returns an error `e`,
`DoRequest` returns `e` with a nil response and hands no request to the HTTP
client. -/
theorem DoRequest_build_error {σ Obj U : Type} (x : Externals Obj U) (c : OauthClient σ U)
    (r : request Obj) (out : ToHTTPOut Obj U) (e : GoError)
    (h : toHTTP x r = .done out) (he : out.err = some e) :
    DoRequest x c r = .done { resp := none, err := some e, sent := [] } := by
  simp [DoRequest, h, he]

/-- Witness for C8: a body object that cannot be encoded. -/
theorem DoRequest_build_error_witness :
    DoRequest sampleExternals sampleClient channelRequest =
      .done { resp := none, err := some ⟨"json: unsupported type: chan int"⟩, sent := [] } :=
  DoRequest_build_error sampleExternals sampleClient channelRequest
    { req := none, err := some ⟨"json: unsupported type: chan int"⟩, r := channelRequest }
    ⟨"json: unsupported type: chan int"⟩
    (toHTTP_encode_error sampleExternals channelRequest .channel _ rfl rfl rfl) rfl

/-- Both causes of a build failure make `toHTTP` return an error: an object
the encoder rejects, and a method or URL the library constructor rejects. -/
theorem toHTTP_fails {Obj U : Type} (x : Externals Obj U) (r : request Obj) (e : GoError) :
    (∀ o, r.body = none → r.obj = some o → x.jsonEncode o = .error e →
      ∃ out, toHTTP x r = .done out ∧ out.err = some e) ∧
    (∀ body, (r.body ≠ none ∨ r.obj = none) → httpNewRequest x r.method r.url body = .error e →
      body = r.body → ∃ out, toHTTP x r = .done out ∧ out.err = some e) ∧
    (∀ o b, r.body = none → r.obj = some o → x.jsonEncode o = .ok b →
      httpNewRequest x r.method r.url (some b) = .error e →
      ∃ out, toHTTP x r = .done out ∧ out.err = some e) := by
  refine ⟨?_, ?_, ?_⟩
  · intro o hb ho he
    exact ⟨_, toHTTP_encode_error x r o e hb ho he, rfl⟩
  · intro body h hn hbody
    subst hbody
    rw [toHTTP_no_encoding x r h, hn]
    exact ⟨_, rfl, rfl⟩
  · intro o b hb ho he hn
    rw [toHTTP_encoded x r o b hb ho he, hn]
    exact ⟨_, rfl, rfl⟩

/-- Every request that `DoRequest` hands to the HTTP client carries exactly
the header set of the descriptor; at most one request is handed over, and the
outcome does not depend on the configuration held by the client. -/
theorem DoRequest_sent_headers {σ Obj U : Type} (x : Externals Obj U) (c : OauthClient σ U)
    (r : request Obj) (out : DoRequestOut U) (h : DoRequest x c r = .done out) :
    (∀ req ∈ out.sent, r.header = some req.Header ∧
      ∀ key, headerValues req.Header key = headerValues (r.header.getD []) key) ∧
    out.sent.length ≤ 1 ∧
    (∀ cfg : Config σ, DoRequest x { c with config := cfg } r = DoRequest x c r) := by
  refine ⟨?_, ?_, fun _ => rfl⟩
  · unfold DoRequest at h
    cases ht : toHTTP x r with
    | panic p => simp [ht] at h
    | done o =>
      rw [ht] at h
      cases he : o.err with
      | some e =>
        simp [he] at h
        subst h
        simp
      | none =>
        obtain ⟨req, hd, hreq, hhd, hEq⟩ := toHTTP_done_header x r o ht he
        simp [he, hreq] at h
        subst h
        intro q hq
        simp at hq
        subst hq
        simp [hhd, hEq]
  · unfold DoRequest at h
    cases ht : toHTTP x r with
    | panic p => simp [ht] at h
    | done o =>
      rw [ht] at h
      cases he : o.err with
      | some e =>
        simp [he] at h
        subst h
        simp
      | none =>
        cases hr : o.req with
        | none => simp [he, hr] at h
        | some req =>
          simp [he, hr] at h
          subst h
          simp

/-- After `Header.Set`, the key holds the single value. -/
theorem headerValues_headerSet_self (h : Header) (key value : String) :
    headerValues (headerSet h key value) key = [value] := by
  simp [headerValues, headerSet, List.lookup]

/-- The method `Header.Set` leaves the values of the other keys alone. -/
theorem headerValues_headerSet_other (h : Header) (key value other : String)
    (hne : other ≠ key) :
    headerValues (headerSet h key value) other = headerValues h other := by
  have hb : (other == key) = false := by simpa using hne
  have hl : ∀ l : Header, List.lookup other (l.filter (fun kv => kv.1 != key)) =
      List.lookup other l := by
    intro l
    induction l with
    | nil => rfl
    | cons a t ih =>
      obtain ⟨k, v⟩ := a
      by_cases hk : k = key
      · subst hk
        simp [List.filter, List.lookup, hb, ih]
      · have hk2 : (k != key) = true := by simpa using hk
        simp only [List.filter, hk2, List.lookup, ih]
  simp only [headerValues, headerSet, List.lookup, hb, hl]

/-- A token without type, or of type bearer in any case, is spelled `Bearer`. -/
theorem Token_Type_bearer (tok : Token)
    (h : tok.TokenType = "" ∨ equalFold tok.TokenType "bearer" = true) :
    tok.Type = "Bearer" := by
  rcases h with h | h
  · have h1 : equalFold "" "bearer" = false := by decide
    have h2 : equalFold "" "mac" = false := by decide
    have h3 : equalFold "" "basic" = false := by decide
    simp [Token.Type, h, h1, h2, h3]
  · simp [Token.Type, h]

/-- When the source of an oauth2 transport yields a token, a round trip puts
exactly one request on the network: the given one with the Authorization
header set from the token. -/
theorem RoundTrip_wire {σ U : Type} (t : OAuth2Transport σ U) (req : HTTPRequest U)
    (tok : Token) (s : σ) (htok : t.Source.Token t.Source.state = (.ok tok, s)) :
    (t.RoundTrip req).wire = [SetAuthHeader tok req] := by
  simp [OAuth2Transport.RoundTrip, htok]

/-- Evaluation of `DoRequest` on the GET `/Users` descriptor of the client
built over the sample network: the request is handed to the HTTP client with
the headers of the descriptor and the answer of the server comes back. -/
theorem DoRequest_networkUsersRequest :
    DoRequest sampleExternals networkClient networkUsersRequest =
      .done { resp := some sampleResponse, err := none, sent := [usersWireRequest] } := by
  have h := @toHTTP_NewRequest_with_header Nat SampleObj String sampleExternals networkClient
    "GET" "/Users" acceptHeader "https://api.example.com/Users" (Or.inr (by decide))
    (by simp [sampleExternals, networkClient, NewOauthClient, sampleConfig])
  simp only [DoRequest, networkUsersRequest, h]
  rfl

/-- C7, as stated, fails: the token endpoint of the sample network issues
`abc123`, `GetToken` returns `bearer abc123`, and the GET `/Users` request that
`DoRequest` hands to the HTTP client reaches the server, through the oauth2
transport of that client, with the single Authorization value `Bearer abc123`,
which is not the string `bearer abc123`. -/
theorem DoRequest_authorization_is_not_GetToken_value :
    (∃ g, GetToken networkClient = .done g ∧ g.token = "bearer abc123" ∧ g.err = none) ∧
    (∃ out req w, DoRequest sampleExternals networkClient networkUsersRequest = .done out ∧
      out.sent = [req] ∧
      ((oauth2TransportOf sampleNetwork (authConfigOf sampleConfig)
          { HTTPClient := baseHTTPClient sampleConfig }).RoundTrip req).wire = [w] ∧
      headerValues w.Header "Authorization" = ["Bearer abc123"] ∧
      "bearer abc123" ∉ headerValues w.Header "Authorization") := by
  refine ⟨⟨_, rfl, rfl, rfl⟩, _, usersWireRequest,
    SetAuthHeader { AccessToken := "abc123", TokenType := "" } usersWireRequest,
    DoRequest_networkUsersRequest, rfl, ?_, ?_, ?_⟩
  · exact RoundTrip_wire _ _ { AccessToken := "abc123", TokenType := "" } 1 rfl
  · rw [show (SetAuthHeader { AccessToken := "abc123", TokenType := "" } usersWireRequest).Header =
        headerSet usersWireRequest.Header "Authorization"
          ((Token.Type { AccessToken := "abc123", TokenType := "" }) ++ " " ++ "abc123") from rfl,
      headerValues_headerSet_self, Token_Type_bearer _ (Or.inl rfl)]
    decide
  · rw [show (SetAuthHeader { AccessToken := "abc123", TokenType := "" } usersWireRequest).Header =
        headerSet usersWireRequest.Header "Authorization"
          ((Token.Type { AccessToken := "abc123", TokenType := "" }) ++ " " ++ "abc123") from rfl,
      headerValues_headerSet_self, Token_Type_bearer _ (Or.inl rfl)]
    decide

/-- C7, amended: for the client that `NewOauthClient` builds, when the token
source yields a token with access token `t`, every request that `DoRequest`
hands to the HTTP client is put on the network by the oauth2 transport of that
client as one request with the same method, URL and body, the headers of the
descriptor under every other key, and under `Authorization` the single value
made of the type of the token, a space and `t`; the type is spelled `Bearer`
for a token without type or of type bearer, while `GetToken` returns `bearer `
followed by `t`. -/
theorem DoRequest_sends_authorization {σ Obj U : Type} (x : Externals Obj U)
    (net : Network σ U) (config : Config σ) (r : request Obj) (out : DoRequestOut U)
    (tok : Token) (s : σ)
    (htok : (net.TokenSource (authConfigOf config) { HTTPClient := baseHTTPClient config }).Token
        (net.TokenSource (authConfigOf config) { HTTPClient := baseHTTPClient config }).state =
      (.ok tok, s))
    (h : DoRequest x (NewOauthClient (oauth2Lib net) config).1 r = .done out) :
    (NewOauthClient (oauth2Lib net) config).1.HttpClient =
      oauth2Client net.urlString
        (oauth2TransportOf net (authConfigOf config) { HTTPClient := baseHTTPClient config }) ∧
    (∀ req ∈ out.sent, ∃ w,
      ((oauth2TransportOf net (authConfigOf config)
          { HTTPClient := baseHTTPClient config }).RoundTrip req).wire = [w] ∧
      headerValues w.Header "Authorization" = [tok.Type ++ " " ++ tok.AccessToken] ∧
      w.Method = req.Method ∧ w.URL = req.URL ∧ w.Body = req.Body ∧
      ∀ key, key ≠ "Authorization" →
        headerValues w.Header key = headerValues (r.header.getD []) key) ∧
    ((tok.TokenType = "" ∨ equalFold tok.TokenType "bearer" = true) → tok.Type = "Bearer") ∧
    (∃ g, GetToken (NewOauthClient (oauth2Lib net) config).1 = .done g ∧
      g.token = "bearer " ++ tok.AccessToken ∧ g.err = none) := by
  refine ⟨rfl, ?_, Token_Type_bearer tok, ?_⟩
  · intro req hreq
    obtain ⟨hhdr, _⟩ := (DoRequest_sent_headers x _ r out h).1 req hreq
    refine ⟨SetAuthHeader tok req, RoundTrip_wire _ req tok s htok, ?_, rfl, rfl, rfl, ?_⟩
    · exact headerValues_headerSet_self _ _ _
    · intro key hkey
      rw [hhdr]
      exact headerValues_headerSet_other _ _ _ key hkey
  · exact GetToken_token_of_source _ _ tok s rfl htok

/-- Witness for C7, amended: the GET `/Users` request on the sample network. -/
theorem DoRequest_sends_authorization_witness :
    networkClient.HttpClient =
      oauth2Client sampleNetwork.urlString
        (oauth2TransportOf sampleNetwork (authConfigOf sampleConfig)
          { HTTPClient := baseHTTPClient sampleConfig }) ∧
    (∀ req ∈ [usersWireRequest], ∃ w,
      ((oauth2TransportOf sampleNetwork (authConfigOf sampleConfig)
          { HTTPClient := baseHTTPClient sampleConfig }).RoundTrip req).wire = [w] ∧
      headerValues w.Header "Authorization" =
        [(Token.Type { AccessToken := "abc123", TokenType := "" }) ++ " " ++ "abc123"] ∧
      w.Method = req.Method ∧ w.URL = req.URL ∧ w.Body = req.Body ∧
      ∀ key, key ≠ "Authorization" →
        headerValues w.Header key = headerValues (networkUsersRequest.header.getD []) key) ∧
    (((""  : String) = "" ∨ equalFold "" "bearer" = true) →
      Token.Type { AccessToken := "abc123", TokenType := "" } = "Bearer") ∧
    (∃ g, GetToken networkClient = .done g ∧ g.token = "bearer " ++ "abc123" ∧ g.err = none) :=
  DoRequest_sends_authorization sampleExternals sampleNetwork sampleConfig networkUsersRequest
    { resp := some sampleResponse, err := none, sent := [usersWireRequest] }
    { AccessToken := "abc123", TokenType := "" } 1 rfl DoRequest_networkUsersRequest

/-! ## The caller-side helper -/

/-- Whenever `DoRequest` completes with a nil response, `executeRequest`
faults at its `defer` statement. -/
theorem executeRequest_faults_on_nil_response {σ U : Type} (Obj : Type) (x : Externals Obj U)
    (client : OauthClient σ U) (method path : String) (header : Option Header)
    (out : DoRequestOut U)
    (h : DoRequest x client { NewRequest Obj client method path with header := header } =
      .done out)
    (hr : out.resp = none) :
    executeRequest Obj x client method path header = .panic nilDeref := by
  simp [executeRequest, h, hr]

/-- Whenever `DoRequest` completes with a response, `executeRequest` completes
and its last step closes the body of that response. -/
theorem executeRequest_closes_body {σ U : Type} (Obj : Type) (x : Externals Obj U)
    (client : OauthClient σ U) (method path : String) (header : Option Header)
    (out : DoRequestOut U) (resp : Response)
    (h : DoRequest x client { NewRequest Obj client method path with header := header } =
      .done out)
    (hr : out.resp = some resp) :
    ∃ evs, executeRequest Obj x client method path header =
      .done (evs ++ [Event.closeBody resp]) := by
  cases hread : resp.Body.readErr with
  | none =>
    simp only [executeRequest, h, hr, hread]
    exact ⟨_ ++ [_], congrArg Run.done (List.append_assoc _ [_] [_]).symm⟩
  | some e =>
    simp only [executeRequest, h, hr, hread]
    exact ⟨_ ++ [_], congrArg Run.done (List.append_assoc _ [_] [_]).symm⟩

/-- C10: on the client whose resource API is unreachable, `DoRequest` for
GET `/info` hands the request to the HTTP client and returns its error with a
nil response, and `executeRequest` then faults with a nil dereference. -/
theorem executeRequest_faults_when_request_fails :
    DoRequest sampleExternals downClient
        { NewRequest SampleObj downClient "GET" "/info" with header := some acceptHeader } =
      .done { resp := none, err := some ⟨"dial tcp: connection refused"⟩,
              sent := [{ Method := "GET", URL := "https://api.example.com/info",
                         Header := acceptHeader, Body := none }] } ∧
    executeRequest SampleObj sampleExternals downClient "GET" "/info" (some acceptHeader) =
      .panic nilDeref := by
  have h : DoRequest sampleExternals downClient
        { NewRequest SampleObj downClient "GET" "/info" with header := some acceptHeader } =
      .done { resp := none, err := some ⟨"dial tcp: connection refused"⟩,
              sent := [{ Method := "GET", URL := "https://api.example.com/info",
                         Header := acceptHeader, Body := none }] } := by
    have ht := @toHTTP_NewRequest_with_header Nat SampleObj String sampleExternals downClient "GET"
      "/info" acceptHeader "https://api.example.com/info" (Or.inr (by decide))
      (by simp [sampleExternals, downClient, NewOauthClient, sampleConfig])
    simp only [DoRequest, ht]
    rfl
  exact ⟨h, executeRequest_faults_on_nil_response SampleObj sampleExternals downClient "GET"
    "/info" (some acceptHeader) _ h rfl⟩

end Oauth
